import Mathlib

/-!
Verification of the Study-Planner application (`src/app.js`).

The file shallowly embeds the two components with design content:

* `callApiWithBackoff` (the retrying request client, `app.js` lines 82-117),
  together with the attempt-classification logic (lines 92-104), modelled as a
  pure recursion over an oracle `Nat → AttemptOutcome` describing what the
  remote service does on each attempt;
* `validateInputs` (lines 58-74) and the validation-relevant prefix of
  `handleGeneratePlan` (lines 124-204), with calendar dates as integers
  (epoch days, time-of-day normalized) and the mutable globals
  (`currentTestName`, `currentMaterials`) as explicit state;
* the `OffsetScheduler` component, which the specification documents but whose
  source file is not part of the repository snapshot; it is modelled from the
  spec (each such definition is marked `Modelled from the spec:`).

JavaScript exceptions are modelled by their message strings (`Error.message`),
which is the only part of the exception the program observes.
-/

namespace StudyPlanner

/-- One element of `candidates[0].content.parts`: carries the generated text. -/
structure Part where
  text : String
deriving DecidableEq, Repr

/-- The `content` object of a candidate, holding the list of parts. -/
structure Content where
  parts : List Part
deriving DecidableEq, Repr

/-- One candidate of the service response.  `finishReason` and `content` are
optional fields (`none` models an absent JSON field, which JavaScript's
optional chaining turns into `undefined`). -/
structure Candidate where
  finishReason : Option String
  content : Option Content
deriving DecidableEq, Repr

/-- The parsed JSON body of a service response (`result` in the source). -/
structure ApiResult where
  candidates : List Candidate
deriving DecidableEq, Repr

/-- `result.candidates?.[0]?.finishReason === 'SAFETY'` (app.js line 99):
optional chaining yields `undefined` (never equal to `'SAFETY'`) when
`candidates` is empty or `finishReason` absent. -/
def isSafety (r : ApiResult) : Bool :=
  match r.candidates.head? with
  | some c => c.finishReason == some "SAFETY"
  | none => false

/-- The value at `result.candidates?.[0]?.content?.parts?.[0]?.text`
(app.js line 102), `none` when any step of the optional chain is absent. -/
def firstText (r : ApiResult) : Option String :=
  match r.candidates.head? with
  | none => none
  | some c =>
    match c.content with
    | none => none
    | some ct =>
      match ct.parts.head? with
      | none => none
      | some p => some p.text

/-- Truthiness of the text at the fixed nested path: the check
`!result.candidates?.[0]?.content?.parts?.[0]?.text` fails a response whose
text is absent or the empty string (both falsy in JavaScript). -/
def textTruthy (r : ApiResult) : Bool :=
  match firstText r with
  | some t => !t.isEmpty
  | none => false

/-- A transport-level response: HTTP status, status text, and the result of
`response.json()` (`Except.error` models a body that fails to parse). -/
structure TransportResponse where
  status : Nat
  statusText : String
  body : Except String ApiResult
deriving Repr

/-- `response.ok`: status in the 2xx success range. -/
def responseOk (t : TransportResponse) : Bool :=
  200 ≤ t.status && t.status ≤ 299

/-- What the world does on one attempt: either `fetch` rejects (network
failure), or it resolves with a transport response. -/
inductive AttemptOutcome where
  | fetchRejected (msg : String)
  | response (t : TransportResponse)
deriving Repr

/-- The body of one `try` block of `callApiWithBackoff` (app.js lines 85-107):
classifies the attempt as a thrown error (with its message) or a returned
result.  In source order: a rejected `fetch` propagates; `!response.ok` throws
`API Error: <status> <statusText>`; a body that fails `response.json()`
propagates; a safety-blocked result throws the safety message; a result
lacking a non-empty text at the expected path throws the invalid-response
message; otherwise the full parsed result is returned. -/
def processAttempt : AttemptOutcome → Except String ApiResult
  | .fetchRejected m => .error m
  | .response t =>
    if !(responseOk t) then
      .error ("API Error: " ++ toString t.status ++ " " ++ t.statusText)
    else
      match t.body with
      | .error m => .error m
      | .ok r =>
        if isSafety r then
          .error "The request was blocked due to safety settings."
        else if !(textTruthy r) then
          .error "Received an invalid or empty response from the AI."
        else
          .ok r

/-- Whether the attempt threw (was classified as a failure). -/
def isFail (e : Except String ApiResult) : Bool :=
  match e with
  | .error _ => true
  | .ok _ => false

/-- The message of a thrown attempt (unused default on success). -/
def errMsg (e : Except String ApiResult) : String :=
  match e with
  | .error m => m
  | .ok _ => ""

/-- How one whole call of `callApiWithBackoff` resolves: a returned result, a
thrown error, or — when the loop body never runs — resolution with
`undefined` (no value). -/
inductive CallOutcome where
  | success (r : ApiResult)
  | failure (msg : String)
  | noValue
deriving DecidableEq, Repr

/-- Observable record of one call: how it resolved, how many attempts were
made, and the list of backoff waits (in ms) awaited between attempts, in
order. -/
structure CallResult where
  outcome : CallOutcome
  attempts : Nat
  delays : List Nat
deriving DecidableEq, Repr

/-- The retry loop of `callApiWithBackoff` (app.js lines 84-116), recursing on
the number of remaining iterations.  `i` is the loop counter, `delay` the
current backoff delay; `remaining = maxRetries - i`.  On a thrown attempt the
error is re-thrown when `i === maxRetries - 1` (i.e. `remaining = 1`),
otherwise the loop awaits `delay`, doubles it, and continues. -/
def callLoop (b : Nat → AttemptOutcome) (i delay : Nat) : Nat → CallResult
  | 0 => ⟨.noValue, 0, []⟩
  | r + 1 =>
    match processAttempt (b i) with
    | .ok res => ⟨.success res, 1, []⟩
    | .error msg =>
      if r = 0 then ⟨.failure msg, 1, []⟩
      else
        let rest := callLoop b (i + 1) (delay * 2) r
        ⟨rest.outcome, rest.attempts + 1, delay :: rest.delays⟩

/-- `callApiWithBackoff(payload, maxRetries)` (app.js lines 82-117): the loop
starts at `i = 0` with `delay = 1000`.  The payload itself is opaque to the
wrapper; the oracle `b` gives the outcome of each attempt for it. -/
def callApiWithBackoff (b : Nat → AttemptOutcome) (maxRetries : Nat) : CallResult :=
  callLoop b 0 1000 maxRetries

/-- JavaScript's `String.prototype.trim()`: strips whitespace from both ends
of the string (modelled over the string's character list; `String.trim` of
the Lean core library is extensionally the same but does not reduce in the
kernel). -/
def jsTrim (s : String) : String :=
  ⟨((s.data.dropWhile Char.isWhitespace).reverse.dropWhile Char.isWhitespace).reverse⟩

/-- The state of the form inputs read by `validateInputs`.  `testDate` is the
date input's value: `none` models the empty string (no date selected),
`some d` a selected calendar date, as a day number with time-of-day
normalized (the source compares `new Date(value).getTime()` against
`new Date().setHours(0,0,0,0)`; both sides are modelled at day granularity). -/
structure FormState where
  testName : String
  testDate : Option Int
  materials : String
deriving Repr

/-- `validateInputs` (app.js lines 58-74): returns the first applicable error
message, or `none` when all checks pass.  `today` is the current date at
validation time, normalized to midnight. -/
def validateInputs (today : Int) (f : FormState) : Option String :=
  if jsTrim f.testName = "" then
    some "Please enter a test name."
  else
    match f.testDate with
    | none => some "Please select a test date."
    | some selectedDate =>
      if selectedDate ≤ today then
        some "Please select a future date for the test."
      else if jsTrim f.materials = "" then
        some "Please enter your study materials."
      else
        none

/-- The module-level mutable state of `app.js` (lines 21-22) that
`handleGeneratePlan` writes: the saved test name and materials. -/
structure AppGlobals where
  currentTestName : String
  currentMaterials : String
deriving DecidableEq, Repr

/-- How one invocation of `handleGeneratePlan` ends: an inline validation
error (no request made), a rendered plan, or an inline failure message after
the request path threw. -/
inductive PlanResult where
  | validationError (msg : String)
  | planShown (r : ApiResult)
  | planFailed (msg : String)
deriving Repr

/-- Observable record of one `handleGeneratePlan` invocation: its result, the
module globals after it, and how many `callApiWithBackoff` calls it made. -/
structure PlanOutcome where
  result : PlanResult
  globals : AppGlobals
  networkCalls : Nat
deriving Repr

/-- `handleGeneratePlan` (app.js lines 124-204) at the level of the claims:
on a validation error it displays the message and returns at once — before
the state-saving writes at lines 133-134 and before any network activity.
Otherwise it saves the inputs into the globals and performs one
`callApiWithBackoff` call with the default `maxRetries = 3`; a thrown error
is caught and displayed as `Failed to generate plan: <message>. Please try
again.`  Rendering of a successful plan (`displayStudyPlan` and the
`JSON.parse` of the generated text) is presentational and outside the
embedded scope; the full parsed result is carried in `planShown`. -/
def handleGeneratePlan (today : Int) (f : FormState) (g : AppGlobals)
    (b : Nat → AttemptOutcome) : PlanOutcome :=
  match validateInputs today f with
  | some msg => ⟨.validationError msg, g, 0⟩
  | none =>
    let g' : AppGlobals := ⟨f.testName, f.materials⟩
    match (callApiWithBackoff b 3).outcome with
    | .success r => ⟨.planShown r, g', 1⟩
    | .failure m =>
      ⟨.planFailed ("Failed to generate plan: " ++ m ++ ". Please try again."), g', 1⟩
    | .noValue =>
      ⟨.planFailed "Failed to generate plan: undefined. Please try again.", g', 1⟩

/-! ## OffsetScheduler

The specification documents a second variant of the application, the
`OffsetScheduler`, whose source file is not part of this repository snapshot
(only the retry-client variant of `app.js` is under `src/`).  The component is
therefore modelled from the spec below. -/

/-- Modelled from the spec: a `ReviewItem` of the OffsetScheduler (source not
in `src/`): "`{ id: string (stable per input line, e.g. "card-<index>"),
prompt: string, done: boolean (default false) }`". -/
structure ReviewItem where
  id : String
  prompt : String
  done : Bool
deriving DecidableEq, Repr

/-- Modelled from the spec: the `AppState` of the OffsetScheduler (source not
in `src/`): test date, item list, and the schedule, a mapping from calendar
date to that date's own list of item copies.  Dates are day numbers; the
schedule is an association list in offset order. -/
structure AppState where
  testDate : Int
  items : List ReviewItem
  schedule : List (Int × List ReviewItem)
deriving DecidableEq, Repr

/-- Modelled from the spec: the fixed offset list `{0, 1, 3, 7, 14}` days from
generation day (source not in `src/`). -/
def offsets : List Int := [0, 1, 3, 7, 14]

/-- Modelled from the spec: creation of review items from the (already
trimmed and blank-filtered) input lines, with positional ids `card-<index>`
and `done` defaulting to false (source not in `src/`). -/
def mkItems (items : List String) : List ReviewItem :=
  ((List.range items.length).zip items).map
    (fun p => ⟨"card-" ++ toString p.1, p.2, false⟩)

namespace OffsetScheduler

/-- Modelled from the spec: `generate(testDate, items) -> AppState` (source
not in `src/`): for each offset in the fixed list, include
`today + offset` as a schedule key iff it does not exceed the test date, and
attach the full item list to every included date as that date's own copy. -/
def generate (today testDate : Int) (items : List String) : AppState :=
  let ri := mkItems items
  { testDate := testDate
    items := ri
    schedule := (offsets.filter (fun o => today + o ≤ testDate)).map
      (fun o => (today + o, ri)) }

/-- Modelled from the spec: `toggleDone(date, itemId) -> AppState` (source not
in `src/`): flips the `done` flag of the item with the given id within the
entry for `date`; entries for other dates hold independent copies and are not
touched. -/
def toggleDone (s : AppState) (date : Int) (itemId : String) : AppState :=
  { s with
    schedule := s.schedule.map (fun e =>
      if e.1 = date then
        (e.1, e.2.map (fun it =>
          if it.id = itemId then { it with done := !it.done } else it))
      else e) }

end OffsetScheduler

/-! ## Lemmas about the retry loop -/

theorem callLoop_attempts_pos (b : Nat → AttemptOutcome) (i d r : Nat) (hr : 1 ≤ r) :
    1 ≤ (callLoop b i d r).attempts := by
  match r, hr with
  | r + 1, _ =>
    cases h : processAttempt (b i) with
    | ok res => simp [callLoop, h]
    | error msg =>
      by_cases hr0 : r = 0
      · simp [callLoop, h, hr0]
      · simp [callLoop, h, hr0]

theorem callLoop_attempts_le (b : Nat → AttemptOutcome) (r : Nat) :
    ∀ i d, (callLoop b i d r).attempts ≤ r := by
  induction r with
  | zero => intro i d; simp [callLoop]
  | succ r ih =>
    intro i d
    cases h : processAttempt (b i) with
    | ok res => simp [callLoop, h]
    | error msg =>
      by_cases hr0 : r = 0
      · simp [callLoop, h, hr0]
      · simpa [callLoop, h, hr0] using ih (i + 1) (d * 2)

/-- Skipping a prefix of `k` failing attempts: the loop's outcome is that of
the loop restarted `k` attempts later with the delay doubled `k` times, and
the skipped attempts are counted. -/
theorem callLoop_skip (b : Nat → AttemptOutcome) (k : Nat) :
    ∀ i d r, k < r →
      (∀ j, j < k → isFail (processAttempt (b (i + j))) = true) →
      (callLoop b i d r).outcome = (callLoop b (i + k) (d * 2 ^ k) (r - k)).outcome ∧
      (callLoop b i d r).attempts = k + (callLoop b (i + k) (d * 2 ^ k) (r - k)).attempts := by
  induction k with
  | zero => intro i d r _ _; simp
  | succ k ih =>
    intro i d r hk hfail
    have h0 : isFail (processAttempt (b i)) = true := by
      simpa using hfail 0 (Nat.succ_pos k)
    match r, hk with
    | r + 1, hk =>
      cases h : processAttempt (b i) with
      | ok res => rw [h] at h0; simp [isFail] at h0
      | error msg =>
        have hr0 : r ≠ 0 := by omega
        have ih' := ih (i + 1) (d * 2) r (by omega) (fun j hj => by
          have := hfail (j + 1) (by omega)
          have hidx : i + 1 + j = i + (j + 1) := by omega
          rw [hidx]; exact this)
        have hidx2 : i + 1 + k = i + (k + 1) := by omega
        have hd : d * 2 * 2 ^ k = d * 2 ^ (k + 1) := by ring
        rw [hidx2, hd] at ih'
        have hrr : r - k = r + 1 - (k + 1) := by omega
        rw [hrr] at ih'
        have hstepO : (callLoop b i d (r + 1)).outcome =
            (callLoop b (i + 1) (d * 2) r).outcome := by
          simp [callLoop, h, hr0]
        have hstepA : (callLoop b i d (r + 1)).attempts =
            (callLoop b (i + 1) (d * 2) r).attempts + 1 := by
          simp [callLoop, h, hr0]
        refine ⟨?_, ?_⟩
        · rw [hstepO, ih'.1]
        · have := ih'.2
          omega

/-- The delays awaited by the loop are exactly `d * 2 ^ k` for
`k < attempts - 1`: one wait after each failed attempt except the last
attempt, none before the first. -/
theorem callLoop_delays (b : Nat → AttemptOutcome) (r : Nat) :
    ∀ i d, (callLoop b i d r).delays =
      (List.range ((callLoop b i d r).attempts - 1)).map (fun k => d * 2 ^ k) := by
  induction r with
  | zero => intro i d; simp [callLoop]
  | succ r ih =>
    intro i d
    cases h : processAttempt (b i) with
    | ok res => simp [callLoop, h]
    | error msg =>
      by_cases hr0 : r = 0
      · simp [callLoop, h, hr0]
      · have hpos : 1 ≤ (callLoop b (i + 1) (d * 2) r).attempts :=
          callLoop_attempts_pos b (i + 1) (d * 2) r (by omega)
        obtain ⟨m, hm⟩ : ∃ m, (callLoop b (i + 1) (d * 2) r).attempts = m + 1 :=
          ⟨(callLoop b (i + 1) (d * 2) r).attempts - 1, by omega⟩
        simp only [callLoop, h, if_neg hr0]
        rw [ih (i + 1) (d * 2), hm]
        simp only [Nat.add_sub_cancel, List.range_succ_eq_map, List.map_cons,
          List.map_map, List.cons.injEq]
        refine ⟨by simp, ?_⟩
        apply List.map_congr_left
        intro a _
        simp only [Function.comp_apply, pow_succ]
        ring

/-- When the whole call fails: every attempt throwing makes the loop perform
all `r` attempts and re-throw the last attempt's error. -/
theorem callLoop_all_fail (b : Nat → AttemptOutcome) (i d r : Nat) (hr : 1 ≤ r)
    (hfail : ∀ j, j < r → isFail (processAttempt (b (i + j))) = true) :
    (callLoop b i d r).attempts = r ∧
    (callLoop b i d r).outcome =
      .failure (errMsg (processAttempt (b (i + (r - 1))))) := by
  have hs := callLoop_skip b (r - 1) i d r (by omega) (fun j hj => hfail j (by omega))
  have hrr : r - (r - 1) = 1 := by omega
  rw [hrr] at hs
  have hlast : isFail (processAttempt (b (i + (r - 1)))) = true := hfail (r - 1) (by omega)
  cases h : processAttempt (b (i + (r - 1))) with
  | ok res => rw [h] at hlast; simp [isFail] at hlast
  | error msg =>
    have h1 : callLoop b (i + (r - 1)) (d * 2 ^ (r - 1)) 1 = ⟨.failure msg, 1, []⟩ := by
      simp [callLoop, h]
    refine ⟨?_, ?_⟩
    · rw [hs.2, h1]
      show r - 1 + 1 = r
      omega
    · rw [hs.1, h1]
      simp [errMsg, h]

/-- When the `k`-th attempt (0-based, relative to `i`) is the first that does
not throw: the loop returns its result after exactly `k + 1` attempts. -/
theorem callLoop_first_success (b : Nat → AttemptOutcome) (i d r k : Nat)
    (res : ApiResult) (hk : k < r)
    (hfail : ∀ j, j < k → isFail (processAttempt (b (i + j))) = true)
    (hsucc : processAttempt (b (i + k)) = .ok res) :
    (callLoop b i d r).outcome = .success res ∧
    (callLoop b i d r).attempts = k + 1 := by
  have hs := callLoop_skip b k i d r hk hfail
  obtain ⟨r', hr'⟩ : ∃ r', r - k = r' + 1 := ⟨r - k - 1, by omega⟩
  rw [hr'] at hs
  have h1 : callLoop b (i + k) (d * 2 ^ k) (r' + 1) = ⟨.success res, 1, []⟩ := by
    simp [callLoop, hsucc]
  exact ⟨by rw [hs.1, h1], by rw [hs.2, h1]⟩

/-- `callLoop_all_fail` specialised to a whole `callApiWithBackoff` call. -/
theorem callApi_all_fail (b : Nat → AttemptOutcome) (maxRetries : Nat)
    (h1 : 1 ≤ maxRetries)
    (hfail : ∀ j, j < maxRetries → isFail (processAttempt (b j)) = true) :
    (callApiWithBackoff b maxRetries).attempts = maxRetries ∧
    (callApiWithBackoff b maxRetries).outcome =
      .failure (errMsg (processAttempt (b (maxRetries - 1)))) := by
  have h := callLoop_all_fail b 0 1000 maxRetries h1
    (fun j hj => by simpa using hfail j hj)
  simpa using h

/-- `callLoop_first_success` specialised to a whole `callApiWithBackoff`
call. -/
theorem callApi_first_success (b : Nat → AttemptOutcome) (maxRetries k : Nat)
    (res : ApiResult) (hk : k < maxRetries)
    (hfail : ∀ j, j < k → isFail (processAttempt (b j)) = true)
    (hsucc : processAttempt (b k) = .ok res) :
    (callApiWithBackoff b maxRetries).outcome = .success res ∧
    (callApiWithBackoff b maxRetries).attempts = k + 1 := by
  have h := callLoop_first_success b 0 1000 maxRetries k res hk
    (fun j hj => by simpa using hfail j hj) (by simpa using hsucc)
  simpa using h

/-! ## Concrete fixtures used by the witnesses -/

/-- A response body whose single candidate reports a safety block. -/
def safetyResult : ApiResult := ⟨[⟨some "SAFETY", none⟩]⟩

/-- A 200 transport response carrying the safety-blocked body. -/
def safetyResponse : TransportResponse := ⟨200, "OK", .ok safetyResult⟩

/-- A response body with a non-empty generated text and no safety block. -/
def goodResult : ApiResult := ⟨[⟨some "STOP", some ⟨[⟨"plan text"⟩]⟩⟩]⟩

/-- A 200 transport response carrying the good body. -/
def goodResponse : TransportResponse := ⟨200, "OK", .ok goodResult⟩

/-- A 503 transport response (transport-level failure). -/
def httpFailResponse : TransportResponse := ⟨503, "Service Unavailable", .ok goodResult⟩

/-- A service behaviour whose first attempt is a rejected fetch and whose
later attempts succeed. -/
def flakyB : Nat → AttemptOutcome :=
  fun i => if i = 0 then .fetchRejected "Failed to fetch" else .response goodResponse

/-- A service behaviour that fails at transport level twice, then
succeeds. -/
def twiceFailB : Nat → AttemptOutcome :=
  fun i => if i < 2 then .response httpFailResponse else .response goodResponse

/-! ## The claims -/

/-- C1: for every payload behaviour and every `maxRetries ≥ 1`, if every
attempt fails then `callApiWithBackoff` makes exactly `maxRetries` attempts
and propagates the error of the last attempt (a thrown failure, never a
partial or degraded result); and if every attempt reports a safety block,
the propagated message is the safety-block message, not a generic transport
failure. -/
theorem spec_C1 (b : Nat → AttemptOutcome) (maxRetries : Nat)
    (h1 : 1 ≤ maxRetries)
    (hfail : ∀ i, i < maxRetries → isFail (processAttempt (b i)) = true) :
    (callApiWithBackoff b maxRetries).attempts = maxRetries ∧
    (callApiWithBackoff b maxRetries).outcome =
      .failure (errMsg (processAttempt (b (maxRetries - 1)))) ∧
    ((∀ i, i < maxRetries → ∃ t r, b i = .response t ∧ responseOk t = true ∧
        t.body = .ok r ∧ isSafety r = true) →
      (callApiWithBackoff b maxRetries).outcome =
        .failure "The request was blocked due to safety settings.") := by
  have h := callApi_all_fail b maxRetries h1 hfail
  refine ⟨h.1, h.2, ?_⟩
  intro hsafe
  obtain ⟨t, r, hb, hok, hbody, hs⟩ := hsafe (maxRetries - 1) (by omega)
  rw [h.2, hb]
  simp [processAttempt, hok, hbody, hs, errMsg]

/-- Closed instance of `spec_C1`: a stub that always reports a safety block,
with `maxRetries = 2`. -/
theorem spec_C1_witness :
    (callApiWithBackoff (fun _ => .response safetyResponse) 2).attempts = 2 ∧
    (callApiWithBackoff (fun _ => .response safetyResponse) 2).outcome =
      .failure "The request was blocked due to safety settings." :=
  have h := spec_C1 (fun _ => .response safetyResponse) 2 (by decide)
    (fun _ _ => rfl)
  ⟨h.1, h.2.2 (fun _ _ => ⟨safetyResponse, safetyResult, rfl, by decide, rfl, by decide⟩)⟩

/-- C2: an attempt that obtains a transport response with a parseable body is
treated as a failure if and only if the status is not a success code, or the
body is safety-blocked, or the body lacks a non-empty text at
`candidates[0].content.parts[0].text`; an attempt satisfying none of these
conditions makes the call return the full parsed response structure. -/
theorem spec_C2 :
    (∀ t, responseOk t = false → isFail (processAttempt (.response t)) = true) ∧
    (∀ t r, t.body = .ok r →
      isFail (processAttempt (.response t)) =
        (!(responseOk t) || isSafety r || !(textTruthy r))) ∧
    (∀ t r, t.body = .ok r → responseOk t = true → isSafety r = false →
      textTruthy r = true → processAttempt (.response t) = .ok r) ∧
    (∀ (b : Nat → AttemptOutcome) (maxRetries k : Nat) (t : TransportResponse)
        (r : ApiResult),
      k < maxRetries →
      (∀ j, j < k → isFail (processAttempt (b j)) = true) →
      b k = .response t → t.body = .ok r → responseOk t = true →
      isSafety r = false → textTruthy r = true →
      (callApiWithBackoff b maxRetries).outcome = .success r) := by
  refine ⟨?_, ?_, ?_, ?_⟩
  · intro t h
    simp [processAttempt, h, isFail]
  · intro t r hb
    cases hok : responseOk t <;> cases hs : isSafety r <;> cases ht : textTruthy r <;>
      simp [processAttempt, hb, hok, hs, ht, isFail]
  · intro t r hb hok hs ht
    simp [processAttempt, hb, hok, hs, ht]
  · intro b maxRetries k t r hk hfail hbk hb hok hs ht
    have hsucc : processAttempt (b k) = .ok r := by
      rw [hbk]; simp [processAttempt, hb, hok, hs, ht]
    exact (callApi_first_success b maxRetries k r hk hfail hsucc).1

/-- Closed instance of `spec_C2`: a first attempt with a 200 status, no
safety block and a non-empty text makes the call return the parsed body. -/
theorem spec_C2_witness :
    (callApiWithBackoff (fun _ => .response goodResponse) 3).outcome =
      .success goodResult :=
  spec_C2.2.2.2 (fun _ => .response goodResponse) 3 0 goodResponse goodResult
    (by decide) (fun j hj => absurd hj (Nat.not_lt_zero j)) rfl rfl (by decide)
    (by decide) (by decide)

/-- C3: if the first `k` attempts fail and attempt `k + 1` succeeds, with
`k < maxRetries`, then `callApiWithBackoff` returns the successful response
and makes exactly `k + 1` attempts, the inter-attempt delays having been
`1000 * 2 ^ j` ms for `j < k`. -/
theorem spec_C3 (b : Nat → AttemptOutcome) (maxRetries k : Nat)
    (res : ApiResult) (hk : k < maxRetries)
    (hfail : ∀ j, j < k → isFail (processAttempt (b j)) = true)
    (hsucc : processAttempt (b k) = .ok res) :
    (callApiWithBackoff b maxRetries).outcome = .success res ∧
    (callApiWithBackoff b maxRetries).attempts = k + 1 ∧
    (callApiWithBackoff b maxRetries).delays =
      (List.range k).map (fun j => 1000 * 2 ^ j) := by
  have h := callApi_first_success b maxRetries k res hk hfail hsucc
  refine ⟨h.1, h.2, ?_⟩
  have hd := callLoop_delays b maxRetries 0 1000
  rw [callApiWithBackoff] at h ⊢
  rw [hd, h.2]
  simp

/-- Closed instance of `spec_C3`: two transport failures then success, with
`maxRetries = 4`: three attempts, delays 1000 ms and 2000 ms. -/
theorem spec_C3_witness :
    (callApiWithBackoff twiceFailB 4).outcome = .success goodResult ∧
    (callApiWithBackoff twiceFailB 4).attempts = 3 ∧
    (callApiWithBackoff twiceFailB 4).delays =
      (List.range 2).map (fun j => 1000 * 2 ^ j) :=
  spec_C3 twiceFailB 4 2 goodResult (by decide)
    (fun j hj => by
      have : twiceFailB j = .response httpFailResponse := by
        simp [twiceFailB, hj]
      rw [this]; decide)
    rfl

/-- C4: the waits of one `callApiWithBackoff` call are exactly
`1000 * 2 ^ k` ms for `k` ranging over the failed attempts that were followed
by another attempt: the first delay is 1000 ms, each subsequent delay doubles
with no cap, and there is no wait before the first attempt nor after the
final failing attempt (the number of waits is `attempts - 1`). -/
theorem spec_C4 (b : Nat → AttemptOutcome) (maxRetries : Nat) :
    (callApiWithBackoff b maxRetries).delays =
      (List.range ((callApiWithBackoff b maxRetries).attempts - 1)).map
        (fun k => 1000 * 2 ^ k) :=
  callLoop_delays b maxRetries 0 1000

/-- C9: any thrown exception in an attempt — a rejected fetch as well as a
body that fails to parse as JSON, not only the three spec-listed failure
conditions — is handled identically: it is classified as a failed attempt,
retried after the current backoff delay when attempts remain, and propagated
to the caller when it occurs on the last attempt. -/
theorem spec_C9 (b : Nat → AttemptOutcome) (maxRetries i : Nat) (m : String)
    (hi : i < maxRetries)
    (hprev : ∀ j, j < i → isFail (processAttempt (b j)) = true)
    (hexc : b i = .fetchRejected m ∨
      ∃ t, b i = .response t ∧ responseOk t = true ∧ t.body = .error m) :
    processAttempt (b i) = .error m ∧
    (i + 1 < maxRetries →
      i + 2 ≤ (callApiWithBackoff b maxRetries).attempts ∧
      (callApiWithBackoff b maxRetries).delays.take (i + 1) =
        (List.range (i + 1)).map (fun k => 1000 * 2 ^ k)) ∧
    (i + 1 = maxRetries →
      (callApiWithBackoff b maxRetries).outcome = .failure m ∧
      (callApiWithBackoff b maxRetries).attempts = maxRetries) := by
  have hpa : processAttempt (b i) = .error m := by
    rcases hexc with h | ⟨t, hbt, hok, hbody⟩
    · rw [h]; rfl
    · rw [hbt]; simp [processAttempt, hok, hbody]
  have hfails : ∀ j, j < i + 1 → isFail (processAttempt (b j)) = true := by
    intro j hj
    rcases Nat.lt_or_ge j i with hji | hji
    · exact hprev j hji
    · have : j = i := by omega
      rw [this, hpa]; rfl
  refine ⟨hpa, ?_, ?_⟩
  · intro hlt
    have hs := callLoop_skip b (i + 1) 0 1000 maxRetries (by omega)
      (fun j hj => by simpa using hfails j hj)
    have hpos : 1 ≤ (callLoop b (0 + (i + 1)) (1000 * 2 ^ (i + 1))
        (maxRetries - (i + 1))).attempts :=
      callLoop_attempts_pos _ _ _ _ (by omega)
    have hatt : i + 2 ≤ (callApiWithBackoff b maxRetries).attempts := by
      rw [callApiWithBackoff, hs.2]; omega
    refine ⟨hatt, ?_⟩
    have hd := callLoop_delays b maxRetries 0 1000
    rw [callApiWithBackoff] at hatt ⊢
    rw [hd, ← List.map_take, List.take_range]
    have hmin : min (i + 1) ((callLoop b 0 1000 maxRetries).attempts - 1) = i + 1 := by
      omega
    rw [hmin]
  · intro heq
    have h := callApi_all_fail b maxRetries (by omega)
      (fun j hj => hfails j (by omega))
    refine ⟨?_, h.1⟩
    rw [h.2]
    have : maxRetries - 1 = i := by omega
    rw [this, hpa]
    rfl

/-- Closed instance of `spec_C9`: a rejected fetch on the first attempt is
retried — a second attempt happens and the first wait is 1000 ms. -/
theorem spec_C9_witness :
    processAttempt (flakyB 0) = .error "Failed to fetch" ∧
    2 ≤ (callApiWithBackoff flakyB 3).attempts ∧
    (callApiWithBackoff flakyB 3).delays.take 1 =
      (List.range 1).map (fun k => 1000 * 2 ^ k) :=
  have h := spec_C9 flakyB 3 0 "Failed to fetch" (by decide)
    (fun j hj => absurd hj (Nat.not_lt_zero j)) (Or.inl rfl)
  ⟨h.1, (h.2.1 (by decide)).1, (h.2.1 (by decide)).2⟩

/-- C10: called with `maxRetries = 0` (outside the documented precondition
`maxRetries ≥ 1`), the loop body never runs: no attempt is made, no wait
happens, and the call resolves successfully with no value (`undefined`)
instead of raising an error. -/
theorem spec_C10 (b : Nat → AttemptOutcome) :
    callApiWithBackoff b 0 = ⟨.noValue, 0, []⟩ :=
  rfl

/-- C5: whenever validation fails, `handleGeneratePlan` reports the
validation error inline and returns at once: no network call is made and the
stored globals are left exactly as they were. -/
theorem spec_C5 (today : Int) (f : FormState) (g : AppGlobals)
    (b : Nat → AttemptOutcome) (msg : String)
    (hval : validateInputs today f = some msg) :
    handleGeneratePlan today f g b = ⟨.validationError msg, g, 0⟩ := by
  simp [handleGeneratePlan, hval]

/-- Closed instance of `spec_C5`: an empty test name is reported inline,
with zero network calls and the globals untouched. -/
theorem spec_C5_witness :
    handleGeneratePlan 5 ⟨"", none, ""⟩ ⟨"saved", "saved"⟩
        (fun _ => .response goodResponse) =
      ⟨.validationError "Please enter a test name.", ⟨"saved", "saved"⟩, 0⟩ :=
  spec_C5 5 ⟨"", none, ""⟩ ⟨"saved", "saved"⟩ (fun _ => .response goodResponse)
    "Please enter a test name." rfl

/-- C6: with a non-blank name and non-blank materials, `validateInputs`
accepts the selected date exactly when it is strictly after today
(time-of-day normalized), and a date equal to today or earlier yields the
future-date validation error. -/
theorem spec_C6 (today d : Int) (name materials : String)
    (hname : jsTrim name ≠ "") (hmat : jsTrim materials ≠ "") :
    (validateInputs today ⟨name, some d, materials⟩ = none ↔ today < d) ∧
    (d ≤ today →
      validateInputs today ⟨name, some d, materials⟩ =
        some "Please select a future date for the test.") := by
  constructor
  · by_cases hd : d ≤ today
    · simp [validateInputs, hname, hd]
    · simp [validateInputs, hname, hmat, hd]
      omega
  · intro hd
    simp [validateInputs, hname, hd]

/-- Closed instance of `spec_C6`: with today = day 0, day 1 is accepted. -/
theorem spec_C6_witness :
    (validateInputs 0 ⟨"Biology", some 1, "cells"⟩ = none ↔ (0 : Int) < 1) ∧
    ((1 : Int) ≤ 0 →
      validateInputs 0 ⟨"Biology", some 1, "cells"⟩ =
        some "Please select a future date for the test.") :=
  spec_C6 0 1 "Biology" "cells" (by decide) (by decide)

/-- C7: every date key of the schedule produced by `OffsetScheduler.generate`
satisfies `today ≤ key ≤ testDate`; the keys are exactly the offsets
`{0, 1, 3, 7, 14}` from today that do not exceed the test date; and when
`testDate < today` the schedule is empty while the items list is still fully
populated (a valid, non-error state). -/
theorem spec_C7 (today testDate : Int) (items : List String) :
    (∀ k, k ∈ (OffsetScheduler.generate today testDate items).schedule.map Prod.fst →
      today ≤ k ∧ k ≤ testDate) ∧
    ((OffsetScheduler.generate today testDate items).schedule.map Prod.fst =
      (offsets.filter (fun o => today + o ≤ testDate)).map (fun o => today + o)) ∧
    (testDate < today →
      (OffsetScheduler.generate today testDate items).schedule = [] ∧
      (OffsetScheduler.generate today testDate items).items.length = items.length) := by
  have hkeys : (OffsetScheduler.generate today testDate items).schedule.map Prod.fst =
      (offsets.filter (fun o => today + o ≤ testDate)).map (fun o => today + o) := by
    simp [OffsetScheduler.generate, List.map_map]
  have hnonneg : ∀ o : Int, o ∈ offsets → 0 ≤ o := by
    intro o ho
    simp [offsets] at ho
    rcases ho with rfl | rfl | rfl | rfl | rfl <;> norm_num
  refine ⟨?_, hkeys, ?_⟩
  · intro k hk
    rw [hkeys] at hk
    simp only [List.mem_map, List.mem_filter] at hk
    obtain ⟨o, ⟨homem, hole⟩, rfl⟩ := hk
    have h0 : 0 ≤ o := hnonneg o homem
    have hle : today + o ≤ testDate := by simpa using hole
    omega
  · intro hlt
    have hfil : offsets.filter (fun o => today + o ≤ testDate) = [] := by
      rw [List.filter_eq_nil_iff]
      intro o ho
      have h0 : 0 ≤ o := hnonneg o ho
      simp only [decide_eq_true_eq]
      omega
    constructor
    · simp [OffsetScheduler.generate, hfil]
    · simp [OffsetScheduler.generate, mkItems]

/-- Closed instance of `spec_C7`: with today = day 0 and test on day 20, the
key 14 lies in range; with the test a day in the past, the schedule is empty
while the single item is kept. -/
theorem spec_C7_witness :
    ((0 : Int) ≤ 14 ∧ (14 : Int) ≤ 20) ∧
    ((OffsetScheduler.generate 0 (-1) ["A"]).schedule = [] ∧
      (OffsetScheduler.generate 0 (-1) ["A"]).items.length = ["A"].length) :=
  ⟨(spec_C7 0 20 ["A", "B"]).1 14 (by decide), (spec_C7 0 (-1) ["A"]).2.2 (by decide)⟩

/-- Toggling the same item id twice in one date's item list restores the
list. -/
theorem toggleItem_invol (itemId : String) (l : List ReviewItem) :
    (l.map (fun it => if it.id = itemId then { it with done := !it.done } else it)).map
      (fun it => if it.id = itemId then { it with done := !it.done } else it) = l := by
  induction l with
  | nil => rfl
  | cons it l ih =>
    obtain ⟨i1, p1, d1⟩ := it
    by_cases h : i1 = itemId <;> simp [h, ih]

/-- Toggling the same (date, item id) twice in the whole schedule restores
the schedule. -/
theorem toggleEntry_invol (d : Int) (itemId : String)
    (l : List (Int × List ReviewItem)) :
    (l.map (fun e => if e.1 = d then
        (e.1, e.2.map (fun it =>
          if it.id = itemId then { it with done := !it.done } else it))
      else e)).map (fun e => if e.1 = d then
        (e.1, e.2.map (fun it =>
          if it.id = itemId then { it with done := !it.done } else it))
      else e) = l := by
  induction l with
  | nil => rfl
  | cons e l ih =>
    obtain ⟨a, li⟩ := e
    by_cases h : a = d
    · simp [h, ih]
      rw [← List.map_map, toggleItem_invol]
    · simp [h, ih]

/-- A toggle at date `d` leaves the entries at every other date untouched. -/
theorem toggle_filter_other (d d' : Int) (hd : d' ≠ d) (itemId : String)
    (l : List (Int × List ReviewItem)) :
    (l.map (fun e => if e.1 = d then
        (e.1, e.2.map (fun it =>
          if it.id = itemId then { it with done := !it.done } else it))
      else e)).filter (fun e => e.1 == d') = l.filter (fun e => e.1 == d') := by
  induction l with
  | nil => rfl
  | cons e l ih =>
    obtain ⟨a, li⟩ := e
    by_cases h : a = d
    · subst h
      have hne : (a == d') = false := by
        simp only [beq_eq_false_iff_ne]
        exact fun hc => hd (hc ▸ rfl)
      simp [List.filter_cons, hne, ih]
    · simp [List.filter_cons, h, ih]

/-- C8: applying `OffsetScheduler.toggleDone(date, id)` twice in succession
restores the original state (involution), and a single toggle changes only
that date's copy of the item: the entry lists under every other scheduled
date are unchanged. -/
theorem spec_C8 (s : AppState) (d : Int) (itemId : String) :
    OffsetScheduler.toggleDone (OffsetScheduler.toggleDone s d itemId) d itemId = s ∧
    (∀ d', d' ≠ d →
      (OffsetScheduler.toggleDone s d itemId).schedule.filter (fun e => e.1 == d') =
        s.schedule.filter (fun e => e.1 == d')) := by
  constructor
  · obtain ⟨td, its, sch⟩ := s
    simp only [OffsetScheduler.toggleDone]
    rw [toggleEntry_invol]
  · intro d' hd
    simp only [OffsetScheduler.toggleDone]
    exact toggle_filter_other d d' hd itemId s.schedule

/-- A concrete generated state used by the `spec_C8` witness. -/
def sampleState : AppState := OffsetScheduler.generate 0 20 ["A", "B"]

/-- Closed instance of `spec_C8`: toggling `card-0` on day 0 twice restores
the state, and one toggle leaves day 1's entry unchanged. -/
theorem spec_C8_witness :
    OffsetScheduler.toggleDone (OffsetScheduler.toggleDone sampleState 0 "card-0")
        0 "card-0" = sampleState ∧
    (OffsetScheduler.toggleDone sampleState 0 "card-0").schedule.filter
        (fun e => e.1 == 1) =
      sampleState.schedule.filter (fun e => e.1 == 1) :=
  ⟨(spec_C8 sampleState 0 "card-0").1, (spec_C8 sampleState 0 "card-0").2 1 (by decide)⟩

end StudyPlanner
